import Mathlib

/-!
Verification of the PTO-donation server (`src/server.js`), a CRUD REST API
over SQLite whose core is the donation transaction `POST /api/donations`.
The relational rows are embedded as Lean structures, the tables as lists,
and each SQL statement of the donation path as a pure function on the
store.  Integer-valued JS numbers / SQLite INTEGER columns are embedded
as `Int`.
-/

namespace PTOBuddy

/-- Values of the `status` column of `support_requests`: the handler writes
only the strings `'active'` (default on creation) and `'fulfilled'`. -/
inductive Status where
  | active
  | fulfilled
deriving DecidableEq

/-- A row of the `companies` table (schema at src/server.js:20-26). -/
structure Company where
  id : Nat
  name : String
  domain : Option String
  allow_cross_company : Bool
deriving DecidableEq

/-- A row of the `users` table (schema at src/server.js:28-43); the
credential columns, which no claim touches, are omitted. -/
structure User where
  id : Nat
  first_name : String
  last_name : String
  email : String
  phone : String
  company_id : Option Nat
  can_donate : Bool
  need_support : Bool
  available_pto_hours : Int
deriving DecidableEq

/-- A row of the `support_requests` table (schema at src/server.js:45-58);
the display-only columns (urgency, category, reason, dates) are omitted. -/
structure SupportRequest where
  id : Nat
  user_id : Nat
  hours_needed : Int
  hours_received : Int
  status : Status
deriving DecidableEq

/-- A row of the `donations` table (schema at src/server.js:60-69). -/
structure Donation where
  donor_id : Nat
  request_id : Nat
  hours : Int
  message : Option String
deriving DecidableEq

/-- The database: the four tables, each a list of rows in insertion order. -/
structure Store where
  companies : List Company
  users : List User
  requests : List SupportRequest
  donations : List Donation
deriving DecidableEq

/-- `SELECT ... FROM users WHERE id = ?` with `.get` (src/server.js:747):
better-sqlite3 `.get` returns the first matching row or `undefined`. -/
def findUser (users : List User) (i : Nat) : Option User :=
  users.find? (fun u => u.id == i)

/-- `SELECT * FROM support_requests WHERE id = ? AND status = 'active'`
with `.get` (src/server.js:753). -/
def findActiveRequest (rs : List SupportRequest) (i : Nat) : Option SupportRequest :=
  rs.find? (fun r => r.id == i && decide (r.status = Status.active))

/-- `SELECT hours_needed, hours_received FROM support_requests WHERE id = ?`
with `.get` (src/server.js:781). -/
def findRequest (rs : List SupportRequest) (i : Nat) : Option SupportRequest :=
  rs.find? (fun r => r.id == i)

/-- `INSERT INTO donations (donor_id, request_id, hours, message) VALUES (?,?,?,?)`
(src/server.js:759-762). -/
def insertDonation (ds : List Donation) (dId rId : Nat) (h : Int)
    (msg : Option String) : List Donation :=
  ds ++ [{ donor_id := dId, request_id := rId, hours := h, message := msg }]

/-- `UPDATE users SET available_pto_hours = available_pto_hours - ? WHERE id = ?`
(src/server.js:765-767): SQL updates every row matching the WHERE clause. -/
def updateDonorPTO (users : List User) (h : Int) (i : Nat) : List User :=
  users.map (fun u =>
    if u.id = i then { u with available_pto_hours := u.available_pto_hours - h } else u)

/-- `UPDATE support_requests SET hours_received = hours_received + ? WHERE id = ?`
(src/server.js:770-772). -/
def updateRequestHours (rs : List SupportRequest) (h : Int) (i : Nat) :
    List SupportRequest :=
  rs.map (fun r =>
    if r.id = i then { r with hours_received := r.hours_received + h } else r)

/-- `UPDATE support_requests SET status = 'fulfilled' WHERE id = ?`
(src/server.js:783). -/
def markFulfilled (rs : List SupportRequest) (i : Nat) : List SupportRequest :=
  rs.map (fun r => if r.id = i then { r with status := Status.fulfilled } else r)

/-- The error kinds of the donation endpoint: 400 for missing fields
(ValidationError), 400 for a missing donor or short balance
(InsufficientBalance), 404 for a missing-or-closed request
(RequestNotFound), and 500 from the catch block (StoreFailure). -/
inductive ErrorKind where
  | ValidationError
  | InsufficientBalance
  | RequestNotFound
  | StoreFailure
deriving DecidableEq

/-- Outcome reported to the HTTP client: 201 on success, else an error kind. -/
inductive DonationResult where
  | success
  | failure (e : ErrorKind)
deriving DecidableEq

/-- The request body of `POST /api/donations`
(`const { donorId, requestId, hours, message } = req.body`,
src/server.js:740).  `none` models an absent field. -/
structure DonationCall where
  donorId : Option Nat
  requestId : Option Nat
  hours : Option Int
  message : Option String
deriving DecidableEq

/-- JS truthiness of an id field as tested by `!donorId` / `!requestId`
(src/server.js:742): absent and `0` are falsy. -/
def truthyId : Option Nat → Bool
  | none => false
  | some n => n != 0

/-- JS truthiness of the `hours` field as tested by `!hours`
(src/server.js:742): absent and `0` are falsy; every other number,
negative ones included, is truthy. -/
def truthyHours : Option Int → Bool
  | none => false
  | some h => h != 0

/-- `message || null` (src/server.js:776): a falsy message (absent or the
empty string) is stored as NULL. -/
def storedMessage : Option String → Option String
  | none => none
  | some m => if m = "" then none else some m

/-- The body of `db.transaction(() => ...)` at src/server.js:775-785: insert
the donation, decrement the donor's balance, increment the request's
received hours, re-read the request and close it when fully funded.
better-sqlite3 rolls the whole transaction back if the body throws, which
happens exactly when the re-read returns `undefined` (the subsequent field
access would throw); that case is `none` here. -/
def donationTransaction (s : Store) (dId rId : Nat) (h : Int)
    (msg : Option String) : Option Store :=
  let s1 : Store := { s with donations := insertDonation s.donations dId rId h msg }
  let s2 : Store := { s1 with users := updateDonorPTO s1.users h dId }
  let s3 : Store := { s2 with requests := updateRequestHours s2.requests h rId }
  match findRequest s3.requests rId with
  | none => none
  | some updatedRequest =>
    if updatedRequest.hours_received ≥ updatedRequest.hours_needed then
      some { s3 with requests := markFulfilled s3.requests rId }
    else
      some s3

/-- The `POST /api/donations` handler (src/server.js:738-794): field-presence
check, donor balance check, request-active check, then the transaction.
Returns the reported result together with the store after the call. -/
def recordDonation (s : Store) (c : DonationCall) : DonationResult × Store :=
  if !(truthyId c.donorId && truthyId c.requestId && truthyHours c.hours) then
    (DonationResult.failure ErrorKind.ValidationError, s)
  else
    match findUser s.users (c.donorId.getD 0) with
    | none => (DonationResult.failure ErrorKind.InsufficientBalance, s)
    | some donor =>
      if donor.available_pto_hours < c.hours.getD 0 then
        (DonationResult.failure ErrorKind.InsufficientBalance, s)
      else
        match findActiveRequest s.requests (c.requestId.getD 0) with
        | none => (DonationResult.failure ErrorKind.RequestNotFound, s)
        | some _ =>
          match donationTransaction s (c.donorId.getD 0) (c.requestId.getD 0)
              (c.hours.getD 0) (storedMessage c.message) with
          | none => (DonationResult.failure ErrorKind.StoreFailure, s)
          | some s2 => (DonationResult.success, s2)

/-- A sequence of `POST /api/donations` calls: each call leaves the store of
the previous call (failed calls leave it unchanged). -/
def runDonations (s : Store) (cs : List DonationCall) : Store :=
  cs.foldl (fun st c => (recordDonation st c).2) s

/-- The optional fields of the `PUT /api/users/:id` body
(src/server.js:594): `some v` models a field present with value `v`. -/
structure UserPatch where
  first_name : Option String
  last_name : Option String
  email : Option String
  phone : Option String
  company_id : Option (Option Nat)
  can_donate : Option Bool
  need_support : Option Bool
  available_pto_hours : Option Int
deriving DecidableEq

/-- `updates.length === 0` test of the handler (src/server.js:608): at least
one field of the body is present. -/
def patchPresent (p : UserPatch) : Bool :=
  p.first_name.isSome || p.last_name.isSome || p.email.isSome || p.phone.isSome ||
    p.company_id.isSome || p.can_donate.isSome || p.need_support.isSome ||
    p.available_pto_hours.isSome

/-- The dynamically built `UPDATE users SET ... WHERE id = ?` of the handler
(src/server.js:599-613): each present field overwrites the column, with no
validation of the values (in particular `available_pto_hours` is stored
exactly as supplied). -/
def applyPatch (p : UserPatch) (u : User) : User :=
  { u with
    first_name := p.first_name.getD u.first_name,
    last_name := p.last_name.getD u.last_name,
    email := p.email.getD u.email,
    phone := p.phone.getD u.phone,
    company_id := p.company_id.getD u.company_id,
    can_donate := p.can_donate.getD u.can_donate,
    need_support := p.need_support.getD u.need_support,
    available_pto_hours := p.available_pto_hours.getD u.available_pto_hours }

/-- The `PUT /api/users/:id` handler (src/server.js:591-630), restricted to
its effect on the store: an empty patch is rejected with 400 (no change),
otherwise every user row matching the id is overwritten by the patch. -/
def updateUserProfile (s : Store) (userId : Nat) (p : UserPatch) : Store :=
  if !(patchPresent p) then s
  else { s with users := s.users.map (fun u => if u.id = userId then applyPatch p u else u) }

/-- Overwrite the `allow_cross_company` flag of every company according to
`f`, leaving every other column and table untouched. -/
def setFlags (s : Store) (f : Nat → Bool) : Store :=
  { s with companies := s.companies.map (fun co => { co with allow_cross_company := f co.id }) }

/-- The transaction body of the second copy of the donation handler
(src/server.js:1509-1519; the source file contains the whole server twice). -/
def donationTransactionV2 (s : Store) (dId rId : Nat) (h : Int)
    (msg : Option String) : Option Store :=
  let s1 : Store := { s with donations := insertDonation s.donations dId rId h msg }
  let s2 : Store := { s1 with users := updateDonorPTO s1.users h dId }
  let s3 : Store := { s2 with requests := updateRequestHours s2.requests h rId }
  match findRequest s3.requests rId with
  | none => none
  | some updatedRequest =>
    if updatedRequest.hours_received ≥ updatedRequest.hours_needed then
      some { s3 with requests := markFulfilled s3.requests rId }
    else
      some s3

/-- The second copy of the `POST /api/donations` handler
(src/server.js:1472-1528). -/
def recordDonationV2 (s : Store) (c : DonationCall) : DonationResult × Store :=
  if !(truthyId c.donorId && truthyId c.requestId && truthyHours c.hours) then
    (DonationResult.failure ErrorKind.ValidationError, s)
  else
    match findUser s.users (c.donorId.getD 0) with
    | none => (DonationResult.failure ErrorKind.InsufficientBalance, s)
    | some donor =>
      if donor.available_pto_hours < c.hours.getD 0 then
        (DonationResult.failure ErrorKind.InsufficientBalance, s)
      else
        match findActiveRequest s.requests (c.requestId.getD 0) with
        | none => (DonationResult.failure ErrorKind.RequestNotFound, s)
        | some _ =>
          match donationTransactionV2 s (c.donorId.getD 0) (c.requestId.getD 0)
              (c.hours.getD 0) (storedMessage c.message) with
          | none => (DonationResult.failure ErrorKind.StoreFailure, s)
          | some s2 => (DonationResult.success, s2)

/-- Sum of the `hours` column over the donations referencing request `i`
(`SELECT COALESCE(SUM(hours), 0) FROM donations WHERE request_id = ?`). -/
def donationSum (ds : List Donation) (i : Nat) : Int :=
  ((ds.filter (fun d => d.request_id == i)).map Donation.hours).sum

/-- Ledger consistency for the request id `i`: every request row with that id
has `hours_received` equal to the sum of the donations referencing it. -/
abbrev RequestLedgerOK (s : Store) (i : Nat) : Prop :=
  ∀ r ∈ s.requests, r.id = i → r.hours_received = donationSum s.donations i

/-- Every user has a non-negative PTO balance. -/
abbrev UsersNonneg (s : Store) : Prop :=
  ∀ u ∈ s.users, 0 ≤ u.available_pto_hours

/-- The user ids are pairwise distinct (the `users.id` PRIMARY KEY). -/
abbrev UserIdsNodup (s : Store) : Prop :=
  (s.users.map User.id).Nodup

/-- The request ids are pairwise distinct (the `support_requests.id`
PRIMARY KEY). -/
abbrev RequestIdsNodup (s : Store) : Prop :=
  (s.requests.map SupportRequest.id).Nodup

/-- A truthy id field is present and nonzero. -/
theorem truthyId_spec {o : Option Nat} (h : truthyId o = true) :
    o = some (o.getD 0) ∧ o.getD 0 ≠ 0 := by
  cases o with
  | none => simp [truthyId] at h
  | some n => exact ⟨rfl, by simpa [truthyId, bne_iff_ne] using h⟩

/-- A truthy hours field is present and nonzero. -/
theorem truthyHours_spec {o : Option Int} (h : truthyHours o = true) :
    o = some (o.getD 0) ∧ o.getD 0 ≠ 0 := by
  cases o with
  | none => simp [truthyHours] at h
  | some n => exact ⟨rfl, by simpa [truthyHours, bne_iff_ne] using h⟩

/-- The balance update leaves the user ids unchanged. -/
theorem updateDonorPTO_ids (users : List User) (h : Int) (i : Nat) :
    (updateDonorPTO users h i).map User.id = users.map User.id := by
  unfold updateDonorPTO
  rw [List.map_map]
  apply List.map_congr_left
  intro u _
  by_cases hx : u.id = i <;> simp [hx]

/-- The received-hours update leaves the request ids unchanged. -/
theorem updateRequestHours_ids (rs : List SupportRequest) (h : Int) (i : Nat) :
    (updateRequestHours rs h i).map SupportRequest.id = rs.map SupportRequest.id := by
  unfold updateRequestHours
  rw [List.map_map]
  apply List.map_congr_left
  intro r _
  by_cases hx : r.id = i <;> simp [hx]

/-- The status update leaves the request ids unchanged. -/
theorem markFulfilled_ids (rs : List SupportRequest) (i : Nat) :
    (markFulfilled rs i).map SupportRequest.id = rs.map SupportRequest.id := by
  unfold markFulfilled
  rw [List.map_map]
  apply List.map_congr_left
  intro r _
  by_cases hx : r.id = i <;> simp [hx]

/-- In a list with pairwise-distinct keys, searching for a member's key
returns that member. -/
theorem find?_key_of_nodup {α : Type} (key : α → Nat) {l : List α}
    (hn : (l.map key).Nodup) {a : α} (ha : a ∈ l) :
    l.find? (fun x => key x == key a) = some a := by
  induction l with
  | nil => cases ha
  | cons b l ih =>
    rw [List.map_cons, List.nodup_cons] at hn
    rcases List.mem_cons.mp ha with rfl | hmem
    · exact List.find?_cons_of_pos _ (by simp)
    · have hne : key b ≠ key a := by
        intro he
        exact hn.1 (by simpa [he] using List.mem_map_of_mem key hmem)
      rw [List.find?_cons_of_neg _ (by simp [hne]), ih hn.2 hmem]

/-- In a list with pairwise-distinct keys, two members with equal keys are
the same element. -/
theorem key_inj_of_nodup {α : Type} (key : α → Nat) {l : List α}
    (hn : (l.map key).Nodup) {a b : α} (ha : a ∈ l) (hb : b ∈ l)
    (hk : key a = key b) : a = b := by
  have h1 := find?_key_of_nodup key hn ha
  have h2 := find?_key_of_nodup key hn hb
  rw [hk] at h1
  rw [h2] at h1
  exact (Option.some.inj h1).symm

/-- With distinct request ids, looking up a member's id finds it. -/
theorem findRequest_of_nodup {rs : List SupportRequest}
    (hn : (rs.map SupportRequest.id).Nodup) {r : SupportRequest} (hm : r ∈ rs) :
    findRequest rs r.id = some r := by
  unfold findRequest
  exact find?_key_of_nodup SupportRequest.id hn hm

/-- With distinct user ids, looking up a member's id finds it. -/
theorem findUser_of_nodup {us : List User}
    (hn : (us.map User.id).Nodup) {u : User} (hm : u ∈ us) :
    findUser us u.id = some u := by
  unfold findUser
  exact find?_key_of_nodup User.id hn hm

/-- What a successful user lookup says about the row found. -/
theorem findUser_some {us : List User} {i : Nat} {u : User}
    (h : findUser us i = some u) : u ∈ us ∧ u.id = i := by
  refine ⟨List.mem_of_find?_eq_some h, ?_⟩
  simpa using List.find?_some h

/-- What a successful active-request lookup says about the row found. -/
theorem findActiveRequest_some {rs : List SupportRequest} {i : Nat}
    {r : SupportRequest} (h : findActiveRequest rs i = some r) :
    r ∈ rs ∧ r.id = i ∧ r.status = Status.active := by
  have hp := List.find?_some h
  simp only [Bool.and_eq_true, beq_iff_eq, decide_eq_true_eq] at hp
  exact ⟨List.mem_of_find?_eq_some h, hp.1, hp.2⟩

/-- The active-request lookup fails exactly when no row with that id is
active. -/
theorem findActiveRequest_none {rs : List SupportRequest} {i : Nat} :
    findActiveRequest rs i = none ↔
      ∀ r ∈ rs, r.id = i → r.status ≠ Status.active := by
  unfold findActiveRequest
  rw [List.find?_eq_none]
  constructor
  · intro hall r hm hid hst
    exact hall r hm (by simp [hid, hst])
  · intro hall r hm hp
    simp only [Bool.and_eq_true, beq_iff_eq, decide_eq_true_eq] at hp
    exact hall r hm hp.1 hp.2

/-- A request whose id is not targeted is kept unchanged by the
received-hours update. -/
theorem mem_updateRequestHours_of_ne {rs : List SupportRequest}
    {r : SupportRequest} {h : Int} {i : Nat} (hm : r ∈ rs) (hne : r.id ≠ i) :
    r ∈ updateRequestHours rs h i := by
  have hx := List.mem_map_of_mem
    (fun r : SupportRequest =>
      if r.id = i then { r with hours_received := r.hours_received + h } else r) hm
  simpa [updateRequestHours, if_neg hne] using hx

/-- A request whose id is not targeted is kept unchanged by the status
update. -/
theorem mem_markFulfilled_of_ne {rs : List SupportRequest}
    {r : SupportRequest} {i : Nat} (hm : r ∈ rs) (hne : r.id ≠ i) :
    r ∈ markFulfilled rs i := by
  have hx := List.mem_map_of_mem
    (fun r : SupportRequest => if r.id = i then { r with status := Status.fulfilled } else r) hm
  simpa [markFulfilled, if_neg hne] using hx

/-- Inserting one donation adds its hours to the sum of its request and to
no other. -/
theorem donationSum_insert (ds : List Donation) (dId rId : Nat) (h : Int)
    (msg : Option String) (i : Nat) :
    donationSum (insertDonation ds dId rId h msg) i =
      donationSum ds i + (if rId = i then h else 0) := by
  by_cases hx : rId = i <;>
    simp [donationSum, insertDonation, List.filter_append, hx]

/-- The store after the three writes of the transaction body, before the
fulfillment check. -/
def applyWrites (s : Store) (dId rId : Nat) (h : Int) (msg : Option String) : Store :=
  { s with
    donations := insertDonation s.donations dId rId h msg,
    users := updateDonorPTO s.users h dId,
    requests := updateRequestHours s.requests h rId }

/-- When the fulfillment re-read finds a row, the transaction commits: the
three writes, plus the status update exactly when the re-read row has
reached its target. -/
theorem donationTransaction_found {s : Store} {dId rId : Nat} {h : Int}
    {msg : Option String} {ur : SupportRequest}
    (hfr : findRequest (updateRequestHours s.requests h rId) rId = some ur) :
    donationTransaction s dId rId h msg =
      some (if ur.hours_received ≥ ur.hours_needed then
          { applyWrites s dId rId h msg with
            requests := markFulfilled (updateRequestHours s.requests h rId) rId }
        else applyWrites s dId rId h msg) := by
  simp only [donationTransaction]
  rw [hfr]
  simp only [applyWrites]
  split <;> rfl

/-- Whatever the fulfillment re-read does, a committed transaction performs
the three writes, with the status update applied on top or not. -/
theorem donationTransaction_some {s : Store} {dId rId : Nat} {h : Int}
    {msg : Option String} {s2 : Store}
    (htx : donationTransaction s dId rId h msg = some s2) :
    s2.companies = s.companies ∧
    s2.donations = insertDonation s.donations dId rId h msg ∧
    s2.users = updateDonorPTO s.users h dId ∧
    (s2.requests = updateRequestHours s.requests h rId ∨
      s2.requests = markFulfilled (updateRequestHours s.requests h rId) rId) := by
  simp only [donationTransaction] at htx
  split at htx
  · cases htx
  · split at htx <;> cases htx <;>
      exact ⟨rfl, rfl, rfl, by simp⟩

/-- Every run of the donation handler either fails leaving the store
untouched, or passes all three checks and commits the transaction. -/
theorem recordDonation_cases (s : Store) (c : DonationCall) :
    (∃ e, recordDonation s c = (DonationResult.failure e, s)) ∨
    ∃ dId rId h donor r s2,
      c.donorId = some dId ∧ c.requestId = some rId ∧ c.hours = some h ∧
      findUser s.users dId = some donor ∧ h ≤ donor.available_pto_hours ∧
      findActiveRequest s.requests rId = some r ∧
      donationTransaction s dId rId h (storedMessage c.message) = some s2 ∧
      recordDonation s c = (DonationResult.success, s2) := by
  unfold recordDonation
  split
  · exact Or.inl ⟨_, rfl⟩
  next hval =>
    split
    next => exact Or.inl ⟨_, rfl⟩
    next donor hfu =>
      split
      next => exact Or.inl ⟨_, rfl⟩
      next hlt =>
        split
        next => exact Or.inl ⟨_, rfl⟩
        next r hfa =>
          split
          next => exact Or.inl ⟨_, rfl⟩
          next s2 htx =>
            right
            have hval' : truthyId c.donorId = true ∧ truthyId c.requestId = true ∧
                truthyHours c.hours = true := by
              simpa [Bool.and_eq_true, and_assoc] using hval
            exact ⟨c.donorId.getD 0, c.requestId.getD 0, c.hours.getD 0, donor, r, s2,
              (truthyId_spec hval'.1).1, (truthyId_spec hval'.2.1).1,
              (truthyHours_spec hval'.2.2).1, hfu, not_lt.mp hlt, hfa, htx, rfl⟩

/-- Shape of a row of the updated `users` table: same id, balance reduced
by the donated hours exactly on the targeted id. -/
theorem mem_updateDonorPTO {us : List User} {h : Int} {i : Nat} {u2 : User}
    (hm : u2 ∈ updateDonorPTO us h i) :
    ∃ u1 ∈ us, u2.id = u1.id ∧
      u2.available_pto_hours = u1.available_pto_hours - (if u1.id = i then h else 0) := by
  rcases List.mem_map.mp hm with ⟨u1, h1, rfl⟩
  refine ⟨u1, h1, ?_, ?_⟩ <;> by_cases hx : u1.id = i <;> simp [hx]

/-- Shape of a row of the updated `support_requests` table: same id,
received hours increased by the donated hours exactly on the targeted id. -/
theorem mem_updateRequestHours {rs : List SupportRequest} {h : Int} {i : Nat}
    {r2 : SupportRequest} (hm : r2 ∈ updateRequestHours rs h i) :
    ∃ r1 ∈ rs, r2.id = r1.id ∧
      r2.hours_received = r1.hours_received + (if r1.id = i then h else 0) := by
  rcases List.mem_map.mp hm with ⟨r1, h1, rfl⟩
  refine ⟨r1, h1, ?_, ?_⟩ <;> by_cases hx : r1.id = i <;> simp [hx]

/-- The status update changes neither ids nor received hours. -/
theorem mem_markFulfilled {rs : List SupportRequest} {i : Nat}
    {r2 : SupportRequest} (hm : r2 ∈ markFulfilled rs i) :
    ∃ r1 ∈ rs, r2.id = r1.id ∧ r2.hours_received = r1.hours_received := by
  rcases List.mem_map.mp hm with ⟨r1, h1, rfl⟩
  refine ⟨r1, h1, ?_, ?_⟩ <;> by_cases hx : r1.id = i <;> simp [hx]

/-- One donation call never changes the set of user ids. -/
theorem recordDonation_user_ids (s : Store) (c : DonationCall) :
    (recordDonation s c).2.users.map User.id = s.users.map User.id := by
  rcases recordDonation_cases s c with ⟨e, he⟩ |
    ⟨dId, rId, h, donor, r, s2, _, _, _, _, _, _, htx, hrec⟩
  · rw [he]
  · rw [hrec]
    have hus := (donationTransaction_some htx).2.2.1
    simp only []
    rw [hus, updateDonorPTO_ids]

/-- One donation call never changes the set of request ids. -/
theorem recordDonation_request_ids (s : Store) (c : DonationCall) :
    (recordDonation s c).2.requests.map SupportRequest.id =
      s.requests.map SupportRequest.id := by
  rcases recordDonation_cases s c with ⟨e, he⟩ |
    ⟨dId, rId, h, donor, r, s2, _, _, _, _, _, _, htx, hrec⟩
  · rw [he]
  · rw [hrec]
    rcases (donationTransaction_some htx).2.2.2 with hr | hr <;> simp only [] <;> rw [hr]
    · rw [updateRequestHours_ids]
    · rw [markFulfilled_ids, updateRequestHours_ids]

/-- One donation call, successful or not, preserves ledger consistency for
every request id. -/
theorem recordDonation_ledger (s : Store) (c : DonationCall) (i : Nat)
    (hld : RequestLedgerOK s i) : RequestLedgerOK (recordDonation s c).2 i := by
  rcases recordDonation_cases s c with ⟨e, he⟩ |
    ⟨dId, rId, h, donor, r, s2, _, _, _, _, _, _, htx, hrec⟩
  · rw [he]; exact hld
  · rw [hrec]
    obtain ⟨_, hdn, _, hreq⟩ := donationTransaction_some htx
    intro r2 hm hid
    simp only [] at hm
    have hsum : donationSum (DonationResult.success, s2).2.donations i =
        donationSum s.donations i + (if rId = i then h else 0) := by
      simp only []
      rw [hdn, donationSum_insert]
    rw [hsum]
    have hbase : ∃ r1 ∈ s.requests, r2.id = r1.id ∧
        r2.hours_received = r1.hours_received + (if r1.id = rId then h else 0) := by
      rcases hreq with hr | hr
      · rw [hr] at hm
        exact mem_updateRequestHours hm
      · rw [hr] at hm
        rcases mem_markFulfilled hm with ⟨rm, hmm, hmid, hmrec⟩
        rcases mem_updateRequestHours hmm with ⟨r1, h1, h1id, h1rec⟩
        exact ⟨r1, h1, by rw [hmid, h1id], by rw [hmrec, h1rec]⟩
    rcases hbase with ⟨r1, h1, h1id, h1rec⟩
    have hr1i : r1.id = i := by rw [← h1id, hid]
    rw [h1rec, hld r1 h1 hr1i]
    by_cases hx : rId = i
    · rw [if_pos hx, if_pos (by rw [hr1i, hx])]
    · rw [if_neg hx, if_neg (by rw [hr1i]; exact fun hc => hx hc.symm)]

/-- One donation call, successful or not, keeps every balance non-negative
(the balance check guards the only decrement). -/
theorem recordDonation_nonneg (s : Store) (c : DonationCall)
    (hn : UserIdsNodup s) (h0 : UsersNonneg s) :
    UsersNonneg (recordDonation s c).2 := by
  rcases recordDonation_cases s c with ⟨e, he⟩ |
    ⟨dId, rId, h, donor, r, s2, _, _, _, hfu, hbal, _, htx, hrec⟩
  · rw [he]; exact h0
  · rw [hrec]
    obtain ⟨_, _, hus, _⟩ := donationTransaction_some htx
    intro u2 hm
    simp only [] at hm
    rw [hus] at hm
    rcases mem_updateDonorPTO hm with ⟨u1, h1, hid, hval⟩
    by_cases hx : u1.id = dId
    · obtain ⟨hdm, hdid⟩ := findUser_some hfu
      have he1 : u1 = donor :=
        key_inj_of_nodup User.id hn h1 hdm (by rw [hx, hdid])
      rw [hval, if_pos hx, he1]
      exact sub_nonneg.mpr hbal
    · rw [hval, if_neg hx, sub_zero]
      exact h0 u1 h1

/-- One donation call leaves every already-fulfilled request row untouched
(it can only target an active row, which by key uniqueness is a different
row). -/
theorem recordDonation_keeps_fulfilled (s : Store) (c : DonationCall)
    {r : SupportRequest} (hn : RequestIdsNodup s) (hm : r ∈ s.requests)
    (hf : r.status = Status.fulfilled) :
    r ∈ (recordDonation s c).2.requests := by
  rcases recordDonation_cases s c with ⟨e, he⟩ |
    ⟨dId, rId, h, donor, ra, s2, _, _, _, _, _, hfa, htx, hrec⟩
  · rw [he]; exact hm
  · rw [hrec]
    obtain ⟨_, _, _, hreq⟩ := donationTransaction_some htx
    obtain ⟨hram, hraid, hraact⟩ := findActiveRequest_some hfa
    have hne : r.id ≠ rId := by
      intro hid
      have he1 : r = ra :=
        key_inj_of_nodup SupportRequest.id hn hm hram (by rw [hid, hraid])
      rw [he1, hraact] at hf
      cases hf
    rcases hreq with hr2 | hr2 <;> simp only [] <;> rw [hr2]
    · exact mem_updateRequestHours_of_ne hm hne
    · exact mem_markFulfilled_of_ne (mem_updateRequestHours_of_ne hm hne) hne

/-- Unfolding one step of a call sequence. -/
theorem runDonations_cons (s : Store) (c : DonationCall) (cs : List DonationCall) :
    runDonations s (c :: cs) = runDonations (recordDonation s c).2 cs := rfl

/-- A call sequence never changes the set of user ids. -/
theorem runDonations_user_ids (s : Store) (cs : List DonationCall) :
    (runDonations s cs).users.map User.id = s.users.map User.id := by
  induction cs generalizing s with
  | nil => rfl
  | cons c cs ih => rw [runDonations_cons, ih, recordDonation_user_ids]

/-- A call sequence never changes the set of request ids. -/
theorem runDonations_request_ids (s : Store) (cs : List DonationCall) :
    (runDonations s cs).requests.map SupportRequest.id =
      s.requests.map SupportRequest.id := by
  induction cs generalizing s with
  | nil => rfl
  | cons c cs ih => rw [runDonations_cons, ih, recordDonation_request_ids]

/-- With all three fields truthy, the field-presence check passes. -/
theorem validation_passes {dId rId : Nat} {h : Int}
    (hd : dId ≠ 0) (hr : rId ≠ 0) (hh : h ≠ 0) :
    (!(truthyId (some dId) && truthyId (some rId) && truthyHours (some h))) = false := by
  simp [truthyId, truthyHours, hd, hr, hh]

/-- Evaluation of the handler when all checks pass: the reported result is
success and the final store is the committed transaction. -/
theorem recordDonation_success_eq (s : Store) (dId rId : Nat) (h : Int)
    (msg : Option String) (donor : User) (ur : SupportRequest)
    (hd : dId ≠ 0) (hr : rId ≠ 0) (hh : h ≠ 0)
    (hfu : findUser s.users dId = some donor)
    (hbal : ¬ donor.available_pto_hours < h)
    (hfa : (findActiveRequest s.requests rId).isSome = true)
    (hfr : findRequest (updateRequestHours s.requests h rId) rId = some ur) :
    recordDonation s
        { donorId := some dId, requestId := some rId, hours := some h, message := msg } =
      (DonationResult.success,
        if ur.hours_received ≥ ur.hours_needed then
          { applyWrites s dId rId h (storedMessage msg) with
            requests := markFulfilled (updateRequestHours s.requests h rId) rId }
        else applyWrites s dId rId h (storedMessage msg)) := by
  obtain ⟨ra, hra⟩ := Option.isSome_iff_exists.mp hfa
  simp only [recordDonation, validation_passes hd hr hh, Bool.false_eq_true, if_false,
    Option.getD_some, hfu, hra, if_neg hbal, donationTransaction_found hfr]

/-- Evaluation of the handler when the donor lookup fails or the balance is
short: InsufficientBalance, store untouched, whatever the request state. -/
theorem recordDonation_insufficient_eq (s : Store) (dId rId : Nat) (h : Int)
    (msg : Option String)
    (hd : dId ≠ 0) (hr : rId ≠ 0) (hh : h ≠ 0)
    (hbad : ∀ donor, findUser s.users dId = some donor →
      donor.available_pto_hours < h) :
    recordDonation s
        { donorId := some dId, requestId := some rId, hours := some h, message := msg } =
      (DonationResult.failure ErrorKind.InsufficientBalance, s) := by
  cases hfu : findUser s.users dId with
  | none =>
    simp only [recordDonation, validation_passes hd hr hh, Bool.false_eq_true, if_false,
      Option.getD_some, hfu]
  | some donor =>
    simp only [recordDonation, validation_passes hd hr hh, Bool.false_eq_true, if_false,
      Option.getD_some, hfu, if_pos (hbad donor hfu)]

/-- Evaluation of the handler when the donor passes but no active request
matches the id: RequestNotFound, store untouched. -/
theorem recordDonation_not_found_eq (s : Store) (dId rId : Nat) (h : Int)
    (msg : Option String) (donor : User)
    (hd : dId ≠ 0) (hr : rId ≠ 0) (hh : h ≠ 0)
    (hfu : findUser s.users dId = some donor)
    (hbal : ¬ donor.available_pto_hours < h)
    (hfa : findActiveRequest s.requests rId = none) :
    recordDonation s
        { donorId := some dId, requestId := some rId, hours := some h, message := msg } =
      (DonationResult.failure ErrorKind.RequestNotFound, s) := by
  simp only [recordDonation, validation_passes hd hr hh, Bool.false_eq_true, if_false,
    Option.getD_some, hfu, if_neg hbal, hfa]

/-- A sample user row (only the id and the balance matter to the core). -/
def mkUser (i : Nat) (bal : Int) : User :=
  { id := i, first_name := "", last_name := "", email := "", phone := "",
    company_id := none, can_donate := true, need_support := false,
    available_pto_hours := bal }

/-- A sample support-request row. -/
def mkRequest (i uid : Nat) (needed received : Int) (st : Status) : SupportRequest :=
  { id := i, user_id := uid, hours_needed := needed, hours_received := received,
    status := st }

/-- A donation body carrying donor, request and hours. -/
def mkCall (d r : Nat) (h : Int) : DonationCall :=
  { donorId := some d, requestId := some r, hours := some h, message := none }

/-- A store with one donor holding 40 hours and one active request for 40
hours owned by another user. -/
def sampleStore : Store :=
  { companies := [],
    users := [mkUser 1 40, mkUser 2 0],
    requests := [mkRequest 1 2 40 0 Status.active],
    donations := [] }

/-- C1: Ledger consistency: for every support request R, after any sequence
of successful recordDonation (POST /api/donations) calls starting from R's
creation (hours_received = 0, no donations), R.hours_received equals the
sum of the hours fields of all Donation records referencing R.  Stated as
preservation of the per-id ledger equation (which holds trivially at
creation, 0 = 0) along any sequence of donation calls, successful or
failed. -/
theorem ledger_consistency (s : Store) (cs : List DonationCall) (i : Nat)
    (h0 : RequestLedgerOK s i) : RequestLedgerOK (runDonations s cs) i := by
  induction cs generalizing s with
  | nil => exact h0
  | cons c cs ih =>
    rw [runDonations_cons]
    exact ih _ (recordDonation_ledger s c i h0)

/-- Witness for C1: a request created at 0 stays ledger-consistent across a
sequence of two donations (one succeeding, then one failing on balance). -/
theorem ledger_consistency_witness :
    RequestLedgerOK sampleStore 1 ∧
      RequestLedgerOK (runDonations sampleStore [mkCall 1 1 15, mkCall 1 1 30]) 1 :=
  ⟨by decide, ledger_consistency sampleStore [mkCall 1 1 15, mkCall 1 1 30] 1 (by decide)⟩

/-- The PUT /api/users/1 body `{ available_pto_hours: -5 }`. -/
def negPatch : UserPatch :=
  { first_name := none, last_name := none, email := none, phone := none,
    company_id := none, can_donate := none, need_support := none,
    available_pto_hours := some (-5) }

/-- Counterexample to C2 as stated: the profile-update path writes the
supplied balance unchecked, so one PUT /api/users/:id call drives a user's
available_pto_hours negative. -/
theorem nonneg_violated_by_profile_update :
    UsersNonneg sampleStore ∧
      ¬ UsersNonneg (updateUserProfile sampleStore 1 negPatch) := by
  constructor
  · decide
  · decide

/-- C2 (amended): sequences of donation calls (with arbitrary, even
malformed, bodies) keep every user's available_pto_hours non-negative,
assuming the PRIMARY KEY uniqueness of user ids; the profile/employee
update paths, by contrast, store whatever balance they are given. -/
theorem donations_preserve_nonneg (s : Store) (cs : List DonationCall)
    (hn : UserIdsNodup s) (h0 : UsersNonneg s) :
    UsersNonneg (runDonations s cs) := by
  induction cs generalizing s with
  | nil => exact h0
  | cons c cs ih =>
    rw [runDonations_cons]
    refine ih _ ?_ (recordDonation_nonneg s c hn h0)
    show ((recordDonation s c).2.users.map User.id).Nodup
    rw [recordDonation_user_ids]
    exact hn

/-- Witness for C2 (amended): balances stay non-negative across a draining
donation, an overdraw attempt and a malformed call. -/
theorem donations_preserve_nonneg_witness :
    UserIdsNodup sampleStore ∧ UsersNonneg sampleStore ∧
      UsersNonneg (runDonations sampleStore
        [mkCall 1 1 40, mkCall 1 1 1, { mkCall 1 1 1 with hours := none }]) :=
  ⟨by decide, by decide,
    donations_preserve_nonneg sampleStore
      [mkCall 1 1 40, mkCall 1 1 1, { mkCall 1 1 1 with hours := none }]
      (by decide) (by decide)⟩

/-- C3: Atomicity: whenever recordDonation fails with any error kind, the
donor's balance, the request's fields and the donation table are exactly
their pre-call values: the failing call returns the store unchanged. -/
theorem donation_atomicity (s : Store) (c : DonationCall) (e : ErrorKind)
    (hfail : (recordDonation s c).1 = DonationResult.failure e) :
    (recordDonation s c).2 = s := by
  rcases recordDonation_cases s c with ⟨e', he⟩ |
    ⟨dId, rId, h, donor, r, s2, _, _, _, _, _, _, _, hrec⟩
  · rw [he]
  · rw [hrec] at hfail
    exact DonationResult.noConfusion hfail

/-- Witness for C3: a call with a missing hours field fails with
ValidationError and leaves the sample store untouched. -/
theorem donation_atomicity_witness :
    (recordDonation sampleStore { mkCall 1 1 1 with hours := none }).1 =
        DonationResult.failure ErrorKind.ValidationError ∧
      (recordDonation sampleStore { mkCall 1 1 1 with hours := none }).2 = sampleStore :=
  ⟨by decide,
    donation_atomicity sampleStore { mkCall 1 1 1 with hours := none }
      ErrorKind.ValidationError (by decide)⟩

/-- C6: Insufficient balance: with a well-formed body, whenever the donor
lookup fails or the found donor's balance is strictly below the requested
hours, the call fails with InsufficientBalance and changes nothing; no
assumption is made about the request, because the balance check runs
before the request-active check. -/
theorem insufficient_balance (s : Store) (dId rId : Nat) (h : Int)
    (msg : Option String)
    (hd : dId ≠ 0) (hr : rId ≠ 0) (hh : h ≠ 0)
    (hbad : ∀ donor ∈ findUser s.users dId, donor.available_pto_hours < h) :
    recordDonation s
        { donorId := some dId, requestId := some rId, hours := some h, message := msg } =
      (DonationResult.failure ErrorKind.InsufficientBalance, s) :=
  recordDonation_insufficient_eq s dId rId h msg hd hr hh
    (fun donor heq => hbad donor heq)

/-- A store with a donor holding only 10 hours and an active request
needing 40. -/
def lowBalanceStore : Store :=
  { companies := [],
    users := [mkUser 1 10],
    requests := [mkRequest 1 2 40 0 Status.active],
    donations := [] }

/-- Witness for C6: the spec's scenario: donating 20 from a balance of 10
fails with InsufficientBalance and the store (balance 10, request
untouched) is unchanged. -/
theorem insufficient_balance_witness :
    recordDonation lowBalanceStore (mkCall 1 1 20) =
      (DonationResult.failure ErrorKind.InsufficientBalance, lowBalanceStore) :=
  insufficient_balance lowBalanceStore 1 1 20 none
    (by decide) (by decide) (by decide) (by decide)

/-- C7 (evaluation at the failing input): the handler only rejects falsy
hours values, so hours = -5 passes validation and the call succeeds: a
Donation row with hours -5 is inserted, the donor's balance rises from 40
to 45, and the request's hours_received drops to -5 — where the claim
(and the spec) requires a ValidationError with no store write. -/
theorem negative_hours_accepted :
    (recordDonation sampleStore (mkCall 1 1 (-5))).1 = DonationResult.success ∧
      (recordDonation sampleStore (mkCall 1 1 (-5))).2.donations =
        [{ donor_id := 1, request_id := 1, hours := -5, message := none }] ∧
      findUser (recordDonation sampleStore (mkCall 1 1 (-5))).2.users 1 =
        some (mkUser 1 45) ∧
      findRequest (recordDonation sampleStore (mkCall 1 1 (-5))).2.requests 1 =
        some (mkRequest 1 2 40 (-5) Status.active) :=
  ⟨by decide, by decide, by decide, by decide⟩

/-- The transaction never reads or writes the `companies` table, so it
commutes with overwriting the cross-company flags. -/
theorem donationTransaction_setFlags (s : Store) (f : Nat → Bool)
    (dId rId : Nat) (h : Int) (msg : Option String) :
    donationTransaction (setFlags s f) dId rId h msg =
      (donationTransaction s dId rId h msg).map (fun t => setFlags t f) := by
  simp only [donationTransaction, setFlags]
  cases hfr : findRequest (updateRequestHours s.requests h rId) rId with
  | none => rfl
  | some ur =>
    by_cases hc : ur.hours_needed ≤ ur.hours_received <;> simp [hc]

/-- C8: Cross-company noninterference: the outcome of recordDonation (the
reported result and the whole state change) is independent of every
company's allow_cross_company flag: the run on a store with arbitrarily
rewritten flags reports the same result and produces the same store up to
those same flags. -/
theorem cross_company_noninterference (s : Store) (f : Nat → Bool)
    (c : DonationCall) :
    (recordDonation (setFlags s f) c).1 = (recordDonation s c).1 ∧
      (recordDonation (setFlags s f) c).2 = setFlags (recordDonation s c).2 f := by
  have hmain : recordDonation (setFlags s f) c =
      ((recordDonation s c).1, setFlags (recordDonation s c).2 f) := by
    unfold recordDonation
    have hu : (setFlags s f).users = s.users := rfl
    have hq : (setFlags s f).requests = s.requests := rfl
    rw [hu, hq]
    by_cases hval :
        (!(truthyId c.donorId && truthyId c.requestId && truthyHours c.hours)) = true
    · simp only [if_pos hval]
    · simp only [if_neg hval]
      cases hfu : findUser s.users (c.donorId.getD 0) with
      | none => rfl
      | some donor =>
        by_cases hlt : donor.available_pto_hours < c.hours.getD 0
        · simp only [if_pos hlt]
        · simp only [if_neg hlt]
          cases hfa : findActiveRequest s.requests (c.requestId.getD 0) with
          | none => rfl
          | some ra =>
            rw [donationTransaction_setFlags]
            cases htx : donationTransaction s (c.donorId.getD 0) (c.requestId.getD 0)
                (c.hours.getD 0) (storedMessage c.message) with
            | none => rfl
            | some s2 => rfl
  rw [hmain]
  exact ⟨rfl, rfl⟩

/-- C9: Duplicate-version equivalence: the source file contains the server
twice; the donation handler of the second copy (src/server.js:1472-1528)
is the same function as that of the first copy (src/server.js:738-794). -/
theorem duplicate_version_equivalence : recordDonationV2 = recordDonation := rfl

/-- With unique ids, the fulfillment re-read after the increment returns
exactly the targeted row with its received hours increased. -/
theorem findRequest_after_update {rs : List SupportRequest} {rId : Nat} {h : Int}
    (hn : (rs.map SupportRequest.id).Nodup) {r : SupportRequest}
    (hm : r ∈ rs) (hid : r.id = rId) :
    findRequest (updateRequestHours rs h rId) rId =
      some { r with hours_received := r.hours_received + h } := by
  have hmem : ({ r with hours_received := r.hours_received + h } : SupportRequest) ∈
      updateRequestHours rs h rId := by
    have hx := List.mem_map_of_mem
      (fun x : SupportRequest =>
        if x.id = rId then { x with hours_received := x.hours_received + h } else x) hm
    simpa [updateRequestHours, if_pos hid] using hx
  have hn2 : ((updateRequestHours rs h rId).map SupportRequest.id).Nodup := by
    rw [updateRequestHours_ids]
    exact hn
  have hres := findRequest_of_nodup hn2 hmem
  simpa [hid] using hres

/-- With unique ids, looking a row up after the status update returns it
with status fulfilled. -/
theorem findRequest_after_mark {rs : List SupportRequest} {rId : Nat}
    (hn : (rs.map SupportRequest.id).Nodup) {r : SupportRequest}
    (hm : r ∈ rs) (hid : r.id = rId) :
    findRequest (markFulfilled rs rId) rId =
      some { r with status := Status.fulfilled } := by
  have hmem : ({ r with status := Status.fulfilled } : SupportRequest) ∈
      markFulfilled rs rId := by
    have hx := List.mem_map_of_mem
      (fun x : SupportRequest => if x.id = rId then { x with status := Status.fulfilled } else x) hm
    simpa [markFulfilled, if_pos hid] using hx
  have hn2 : ((markFulfilled rs rId).map SupportRequest.id).Nodup := by
    rw [markFulfilled_ids]
    exact hn
  have hres := findRequest_of_nodup hn2 hmem
  simpa [hid] using hres

/-- C4: Threshold boundary: with unique request ids, a donation that passes
all checks succeeds, and the request's row afterwards carries
hours_received + h and is fulfilled exactly when the post-update value
reaches hours_needed (so donating exactly the missing amount fulfills,
one hour less leaves it active). -/
theorem fulfillment_threshold (s : Store) (dId rId : Nat) (h : Int)
    (msg : Option String) (donor : User) (r : SupportRequest)
    (hn : RequestIdsNodup s)
    (hd : dId ≠ 0) (hrr : rId ≠ 0) (hh : h ≠ 0)
    (hfu : findUser s.users dId = some donor)
    (hbal : h ≤ donor.available_pto_hours)
    (hfa : findActiveRequest s.requests rId = some r) :
    (recordDonation s
        { donorId := some dId, requestId := some rId, hours := some h, message := msg }).1 =
      DonationResult.success ∧
    ∃ r2, findRequest (recordDonation s
        { donorId := some dId, requestId := some rId, hours := some h, message := msg }).2.requests
          rId = some r2 ∧
      r2.hours_received = r.hours_received + h ∧
      (r2.status = Status.fulfilled ↔ r.hours_needed ≤ r.hours_received + h) ∧
      (r2.status = Status.active ↔ ¬ r.hours_needed ≤ r.hours_received + h) := by
  obtain ⟨hm, hid, hact⟩ := findActiveRequest_some hfa
  have hfr := findRequest_after_update (h := h) hn hm hid
  have heq := recordDonation_success_eq s dId rId h msg donor
    { r with hours_received := r.hours_received + h } hd hrr hh hfu
    (not_lt.mpr hbal) (by rw [hfa]; rfl) hfr
  rw [heq]
  refine ⟨rfl, ?_⟩
  by_cases hth : ({ r with hours_received := r.hours_received + h } : SupportRequest).hours_received ≥
      ({ r with hours_received := r.hours_received + h } : SupportRequest).hours_needed
  · rw [if_pos hth]
    have hth' : r.hours_needed ≤ r.hours_received + h := hth
    have hn2 : ((updateRequestHours s.requests h rId).map SupportRequest.id).Nodup := by
      rw [updateRequestHours_ids]
      exact hn
    have hfr2 := findRequest_after_mark hn2 (List.mem_of_find?_eq_some hfr)
      (show ({ r with hours_received := r.hours_received + h } : SupportRequest).id = rId from hid)
    refine ⟨{ r with hours_received := r.hours_received + h, status := Status.fulfilled },
      hfr2, rfl, ?_, ?_⟩
    · exact iff_of_true rfl hth'
    · exact iff_of_false (by simp) (by simpa using hth')
  · rw [if_neg hth]
    have hth' : ¬ r.hours_needed ≤ r.hours_received + h := hth
    refine ⟨{ r with hours_received := r.hours_received + h }, hfr, rfl, ?_, ?_⟩
    · refine iff_of_false ?_ hth'
      simp [hact]
    · exact iff_of_true (by simp [hact]) hth'

/-- Witness for C4: donating the exact missing amount (40 of 40) succeeds
and fulfills the request in the same call. -/
theorem fulfillment_threshold_witness :
    (recordDonation sampleStore
        { donorId := some 1, requestId := some 1, hours := some 40, message := none }).1 =
      DonationResult.success ∧
    ∃ r2, findRequest (recordDonation sampleStore
        { donorId := some 1, requestId := some 1, hours := some 40, message := none }).2.requests
          1 = some r2 ∧
      r2.hours_received = (0 : Int) + 40 ∧
      (r2.status = Status.fulfilled ↔ (40 : Int) ≤ 0 + 40) ∧
      (r2.status = Status.active ↔ ¬ (40 : Int) ≤ 0 + 40) :=
  fulfillment_threshold sampleStore 1 1 40 none (mkUser 1 40)
    (mkRequest 1 2 40 0 Status.active) (by decide) (by decide) (by decide) (by decide)
    (by decide) (by decide) (by decide)

/-- C10: Self-donation permitted: the handler never compares the donor to
the request's owner; with the owner as donor (request.user_id = donorId)
the call succeeds under exactly the preconditions of any other donor, and
the donation row is recorded. -/
theorem self_donation_allowed (s : Store) (dId rId : Nat) (h : Int)
    (msg : Option String) (donor : User) (r : SupportRequest)
    (hd : dId ≠ 0) (hrr : rId ≠ 0) (hh : h ≠ 0)
    (hfu : findUser s.users dId = some donor)
    (hbal : h ≤ donor.available_pto_hours)
    (hfa : findActiveRequest s.requests rId = some r)
    (_hown : r.user_id = dId) :
    (recordDonation s
        { donorId := some dId, requestId := some rId, hours := some h, message := msg }).1 =
      DonationResult.success ∧
    (recordDonation s
        { donorId := some dId, requestId := some rId, hours := some h, message := msg }).2.donations =
      s.donations ++
        [{ donor_id := dId, request_id := rId, hours := h, message := storedMessage msg }] := by
  obtain ⟨hm, hid, hact⟩ := findActiveRequest_some hfa
  have hsome : (findRequest (updateRequestHours s.requests h rId) rId).isSome = true := by
    unfold findRequest
    apply List.find?_isSome.mpr
    refine ⟨if r.id = rId then { r with hours_received := r.hours_received + h } else r,
      List.mem_map_of_mem _ hm, ?_⟩
    simp [if_pos hid, hid]
  obtain ⟨ur, hfr⟩ := Option.isSome_iff_exists.mp hsome
  have heq := recordDonation_success_eq s dId rId h msg donor ur hd hrr hh hfu
    (not_lt.mpr hbal) (by rw [hfa]; rfl) hfr
  rw [heq]
  refine ⟨rfl, ?_⟩
  by_cases hth : ur.hours_received ≥ ur.hours_needed
  · rw [if_pos hth]
    rfl
  · rw [if_neg hth]
    rfl

/-- Witness for C10: user 1 owns active request 2 and donates 5 to it
successfully; the donation row is recorded. -/
theorem self_donation_allowed_witness :
    (recordDonation
        { companies := [], users := [mkUser 1 40],
          requests := [mkRequest 2 1 40 0 Status.active], donations := [] }
        { donorId := some 1, requestId := some 2, hours := some 5, message := none }).1 =
      DonationResult.success ∧
    (recordDonation
        { companies := [], users := [mkUser 1 40],
          requests := [mkRequest 2 1 40 0 Status.active], donations := [] }
        { donorId := some 1, requestId := some 2, hours := some 5, message := none }).2.donations =
      ([] : List Donation) ++
        [{ donor_id := 1, request_id := 2, hours := 5, message := storedMessage none }] :=
  self_donation_allowed
    { companies := [], users := [mkUser 1 40],
      requests := [mkRequest 2 1 40 0 Status.active], donations := [] }
    1 2 5 none (mkUser 1 40) (mkRequest 2 1 40 0 Status.active)
    (by decide) (by decide) (by decide) (by decide) (by decide) (by decide) (by decide)

/-- With unique request ids, a fulfilled row survives any sequence of
donation calls entirely unchanged. -/
theorem runDonations_keeps_fulfilled (s : Store) (cs : List DonationCall)
    {r : SupportRequest} (hn : RequestIdsNodup s) (hm : r ∈ s.requests)
    (hf : r.status = Status.fulfilled) : r ∈ (runDonations s cs).requests := by
  induction cs generalizing s with
  | nil => exact hm
  | cons c cs ih =>
    rw [runDonations_cons]
    refine ih _ ?_ (recordDonation_keeps_fulfilled s c hn hm hf)
    show (((recordDonation s c).2.requests).map SupportRequest.id).Nodup
    rw [recordDonation_request_ids]
    exact hn

/-- No row with the given id is active when the unique row with that id is
fulfilled. -/
theorem findActiveRequest_none_of_fulfilled {s : Store} {r : SupportRequest}
    (hn : RequestIdsNodup s) (hm : r ∈ s.requests)
    (hf : r.status = Status.fulfilled) :
    findActiveRequest s.requests r.id = none := by
  apply findActiveRequest_none.mpr
  intro x hx hxid hxact
  have hxe : x = r := key_inj_of_nodup SupportRequest.id hn hx hm hxid
  rw [hxe, hf] at hxact
  cases hxact

/-- C5 (amended): once a request is fulfilled, no sequence of donation
calls changes its row at all (same hours_received, same status, proven by
the row's literal preservation); any well-formed call naming it that
passes the balance check fails with RequestNotFound and changes nothing,
and so does any such call naming an id with no request at all — but a call
that fails an earlier check reports that check's error (ValidationError or
InsufficientBalance) instead. -/
theorem fulfilled_request_closed (s : Store) (r : SupportRequest)
    (cs : List DonationCall)
    (hn : RequestIdsNodup s) (hm : r ∈ s.requests)
    (hf : r.status = Status.fulfilled) (hid0 : r.id ≠ 0) :
    findRequest (runDonations s cs).requests r.id = some r ∧
    (∀ dId h msg donor, dId ≠ 0 → h ≠ 0 →
      findUser s.users dId = some donor → h ≤ donor.available_pto_hours →
      recordDonation s
          { donorId := some dId, requestId := some r.id, hours := some h, message := msg } =
        (DonationResult.failure ErrorKind.RequestNotFound, s)) ∧
    (∀ dId rId h msg donor, dId ≠ 0 → rId ≠ 0 → h ≠ 0 →
      (∀ x ∈ s.requests, x.id ≠ rId) →
      findUser s.users dId = some donor → h ≤ donor.available_pto_hours →
      recordDonation s
          { donorId := some dId, requestId := some rId, hours := some h, message := msg } =
        (DonationResult.failure ErrorKind.RequestNotFound, s)) := by
  refine ⟨?_, ?_, ?_⟩
  · have hm2 := runDonations_keeps_fulfilled s cs hn hm hf
    have hn2 : RequestIdsNodup (runDonations s cs) := by
      show (((runDonations s cs).requests).map SupportRequest.id).Nodup
      rw [runDonations_request_ids]
      exact hn
    exact findRequest_of_nodup hn2 hm2
  · intro dId h msg donor hd hh hfu hbal
    exact recordDonation_not_found_eq s dId r.id h msg donor hd hid0 hh hfu
      (not_lt.mpr hbal) (findActiveRequest_none_of_fulfilled hn hm hf)
  · intro dId rId h msg donor hd hrr hh hnone hfu hbal
    refine recordDonation_not_found_eq s dId rId h msg donor hd hrr hh hfu
      (not_lt.mpr hbal) ?_
    apply findActiveRequest_none.mpr
    intro x hx hxid _
    exact hnone x hx hxid

/-- Store for C5: one donor with 20 hours and a request that is already
fulfilled (40 of 40). -/
def closedStore : Store :=
  { companies := [],
    users := [mkUser 1 20],
    requests := [mkRequest 1 2 40 40 Status.fulfilled],
    donations := [] }

/-- Counterexample to C5 as stated: a call naming the fulfilled request
whose donor balance is short fails with InsufficientBalance, not
RequestNotFound, because the balance check runs first. -/
theorem fulfilled_request_error_kind_cex :
    (recordDonation closedStore (mkCall 1 1 30)).1 =
        DonationResult.failure ErrorKind.InsufficientBalance ∧
      (recordDonation closedStore (mkCall 1 1 30)).1 ≠
        DonationResult.failure ErrorKind.RequestNotFound :=
  ⟨by decide, by decide⟩

/-- Witness for C5 (amended): the fulfilled row survives a donation attempt
unchanged, and a well-funded call naming it fails with RequestNotFound. -/
theorem fulfilled_request_closed_witness :
    findRequest (runDonations closedStore [mkCall 1 1 5]).requests 1 =
        some (mkRequest 1 2 40 40 Status.fulfilled) ∧
      recordDonation closedStore
          { donorId := some 1, requestId := some 1, hours := some 5, message := none } =
        (DonationResult.failure ErrorKind.RequestNotFound, closedStore) := by
  have hc := fulfilled_request_closed closedStore (mkRequest 1 2 40 40 Status.fulfilled)
    [mkCall 1 1 5] (by decide) (by decide) (by decide) (by decide)
  exact ⟨hc.1, hc.2.1 1 5 none (mkUser 1 20) (by decide) (by decide) (by decide) (by decide)⟩

end PTOBuddy
